import Mathlib

/-! Shallow embedding of the RAPPOR client encoder (`client/cpp/encoder.cc`)
and verification of its specified properties.

Machine integers are modelled as `Nat`.  `Bits` (the fixed-width unsigned
bit-vector type) is a `Nat` whose low 32 bits are meaningful; bitwise
operators are the `Nat` bitwise operators, and the C++ `~` on a `Bits`
value is XOR against `2 ^ 32 - 1`.  Byte strings are lists of byte values.
A digest (`unsigned char[16]` for MD5, `unsigned char[32]` for SHA-256) is
modelled as a function from byte index to byte value; the code only reads
a prefix of each digest.  The `float prob_f` field is modelled as a
rational: the only arithmetic the code performs on it is `prob_f * 128`
(exact in binary floating point, 128 being a power of two) followed by a
truncating cast to `uint8_t`.
-/

namespace rappor

/-- The `Bits` bit-vector type (`typedef uint32_t Bits`), as a `Nat` whose
low 32 bits are meaningful. -/
abbrev Bits := Nat

/-- A byte string (`std::string` viewed as its sequence of byte values). -/
abbrev ByteStr := List Nat

/-- An MD5 digest (`unsigned char[16]`), as byte index to byte value. -/
abbrev Md5Digest := Nat → Nat

/-- A SHA-256 digest (`unsigned char[32]`), as byte index to byte value. -/
abbrev Sha256Digest := Nat → Nat

/-- `Md5Func`: a deterministic digest function on byte strings. -/
abbrev Md5Func := ByteStr → Md5Digest

/-- `HmacFunc`: a keyed digest function on (key, message) pairs. -/
abbrev HmacFunc := ByteStr → ByteStr → Sha256Digest

/-- Modelled from the spec: `static int kMaxBits = sizeof(Bits) * 8`
(encoder.cc:31).  The header declaring `Bits` is not under `src/`; the
spec fixes the design capacity at 32 bits ("in this design ≤ 32 for the
PRR byte-indexing scheme"), matching `assert(num_bits_ <= 32)` in
`GetPrrMasks`, whose comment says "We should have already checked this."
So `Bits` is a 32-bit word and `kMaxBits = 32`. -/
def kMaxBits : Nat := 32

/-- The all-ones 32-bit word, `2 ^ 32 - 1`. -/
def mask32 : Nat := 4294967295

/-- 32-bit bitwise complement: what C++ `~` computes on a `Bits` value. -/
def compl32 (x : Bits) : Bits := mask32 ^^^ x

/-- `rappor::Params`: the fields the encoder reads
(`int num_bits; int num_hashes; float prob_f`). -/
structure Params where
  num_bits : Nat
  num_hashes : Nat
  prob_f : ℚ

/-- One `Encode` call's view of the `IrrRandInterface` dependency: the
outcomes of its `PMask` and `QMask` draws.  `none` models a failed draw
(e.g. a failed read from /dev/urandom, encoder.cc:200). -/
structure IrrRand where
  pMask : Option Bits
  qMask : Option Bits

/-- `rappor::Deps`: the client-specific dependencies. -/
structure Deps where
  cohort : Nat
  md5_func : Md5Func
  client_secret : ByteStr
  hmac_func : HmacFunc
  irr_rand : IrrRand

/-- `rappor::Encoder`'s member state. -/
structure Encoder where
  num_bits : Nat
  num_hashes : Nat
  prob_f : ℚ
  cohort : Nat
  md5_func : Md5Func
  client_secret : ByteStr
  hmac_func : HmacFunc
  irr_rand : IrrRand
  num_bytes : Nat
  is_valid : Bool

/-- The first `Encoder` constructor (encoder.cc:33-79): member-initializes
every field (`num_bytes_ = 0`, `is_valid_ = true`), then in the body sets
`is_valid_ = false` if `num_bits_ > kMaxBits`, and either sets
`num_bytes_ = num_bits_ / 8` (when `num_bits_ % 8 == 0`) or sets
`is_valid_ = false`. -/
def mkEncoder (params : Params) (cohort : Nat) (md5_func : Md5Func)
    (client_secret : ByteStr) (hmac_func : HmacFunc)
    (irr_rand : IrrRand) : Encoder :=
  { num_bits := params.num_bits
    num_hashes := params.num_hashes
    prob_f := params.prob_f
    cohort := cohort
    md5_func := md5_func
    client_secret := client_secret
    hmac_func := hmac_func
    irr_rand := irr_rand
    num_bytes := if params.num_bits % 8 == 0 then params.num_bits / 8 else 0
    is_valid :=
      if params.num_bits > kMaxBits then false
      else if params.num_bits % 8 == 0 then true else false }

/-- The second `Encoder` constructor (encoder.cc:81-90): member-initializes
only `num_bits_`, `num_hashes_`, `prob_f_` from `params` and the five
dependency fields from `deps`; its body is empty.  `is_valid_` and
`num_bytes_` appear in neither the initializer list nor the body, so they
are left uninitialized and hold indeterminate values, modelled here as
explicit arguments. -/
def mkEncoderDeps (params : Params) (deps : Deps)
    (indet_is_valid : Bool) (indet_num_bytes : Nat) : Encoder :=
  { num_bits := params.num_bits
    num_hashes := params.num_hashes
    prob_f := params.prob_f
    cohort := deps.cohort
    md5_func := deps.md5_func
    client_secret := deps.client_secret
    hmac_func := deps.hmac_func
    irr_rand := deps.irr_rand
    num_bytes := indet_num_bytes
    is_valid := indet_is_valid }

/-- `Encoder::IsValid` (encoder.cc:92). -/
def Encoder.IsValid (e : Encoder) : Bool := e.is_valid

/-- The digest input built by `MakeBloomFilter` (encoder.cc:120-133): four
bytes `[0, 0, 0, cohort & 0xFF]` (big-endian cohort, assumed to fit one
byte) followed by the raw bytes of `value`. -/
def hashInput (cohort : Nat) (value : ByteStr) : ByteStr :=
  0 :: 0 :: 0 :: (cohort % 256) :: value

/-- The probe loop of `MakeBloomFilter` (encoder.cc:141-145): for each
`i in [0, num_hashes)`, set bit `md5[i] % num_bits` in the accumulator. -/
def bloomLoop (num_bits : Nat) (md5 : Md5Digest) (num_hashes : Nat) : Bits :=
  (List.range num_hashes).foldl
    (fun bloom i => bloom ||| (1 <<< (md5 i % num_bits))) 0

/-- `Encoder::MakeBloomFilter` (encoder.cc:114-147). -/
def Encoder.MakeBloomFilter (e : Encoder) (value : ByteStr) : Bits :=
  bloomLoop e.num_bits (e.md5_func (hashInput e.cohort value)) e.num_hashes

/-- `static_cast<uint8_t>(prob_f_ * 128)` (encoder.cc:163).  For
`prob_f` in `[0, 1]` (its documented range) the float product is exact and
the cast truncates, giving exactly `⌊prob_f * 128⌋`; outside `[0, 255]`
the C++ float-to-uint8 cast has no defined behaviour to model. -/
def threshold128 (prob_f : ℚ) : Nat := (⌊prob_f * 128⌋).toNat

/-- The mask loop of `GetPrrMasks` (encoder.cc:165-177): for each
`i in [0, num_bits)`, digest byte `i` contributes its low bit
(`byte & 0x01`) to `uniform` at position `i`, and bit `i` of `f_mask` is
set exactly when `byte >> 1 < threshold128`. -/
def prrMaskLoop (t : Nat) (sha256 : Sha256Digest) (num_bits : Nat) :
    Bits × Bits :=
  (List.range num_bits).foldl
    (fun acc i =>
      let byte := sha256 i
      let u_bit := byte &&& 1
      let rand128 := byte >>> 1
      let noise_bit : Nat := if rand128 < t then 1 else 0
      (acc.1 ||| (u_bit <<< i), acc.2 ||| (noise_bit <<< i)))
    (0, 0)

/-- `Encoder::GetPrrMasks` (encoder.cc:150-181): computes
`(uniform, f_mask)` from the digest `HMAC(client_secret, value)`. -/
def Encoder.GetPrrMasks (e : Encoder) (value : ByteStr) : Bits × Bits :=
  prrMaskLoop (threshold128 e.prob_f) (e.hmac_func e.client_secret value)
    e.num_bits

/-- The PRR bit-vector `(bloom & ~f_mask) | (uniform & f_mask)` computed at
encoder.cc:195. -/
def Encoder.prr (e : Encoder) (value : ByteStr) : Bits :=
  (e.MakeBloomFilter value &&& compl32 (e.GetPrrMasks value).2)
    ||| ((e.GetPrrMasks value).1 &&& (e.GetPrrMasks value).2)

/-- The observable outcome of `_EncodeInternal`: the final contents of the
caller's three out-variables and the returned bool. -/
structure EncodeResult where
  bloom : Bits
  prr : Bits
  irr : Bits
  ok : Bool

/-- `Encoder::_EncodeInternal` (encoder.cc:183-214).  `bloom0`, `prr0` and
`irr0` are the values the caller's out-variables held before the call:
`*bloom_out` and `*prr_out` are assigned before the mask draws, while
`*irr_out` is assigned only after both draws succeed, so on a failed draw
the function returns `false` with `irr0` intact. -/
def Encoder._EncodeInternal (e : Encoder) (value : ByteStr)
    (bloom0 prr0 irr0 : Bits) : EncodeResult :=
  let bloom := e.MakeBloomFilter value
  let prr := e.prr value
  match e.irr_rand.pMask with
  | none => { bloom := bloom, prr := prr, irr := irr0, ok := false }
  | some p_bits =>
    match e.irr_rand.qMask with
    | none => { bloom := bloom, prr := prr, irr := irr0, ok := false }
    | some q_bits =>
      { bloom := bloom
        prr := prr
        irr := (p_bits &&& compl32 prr) ||| (q_bits &&& prr)
        ok := true }

/-- `Encoder::Encode` (encoder.cc:216-220): delegates to `_EncodeInternal`
with two local out-variables for bloom and prr (whose initial contents are
irrelevant: the result provably does not depend on them), passing the
caller's `irr_out` through. -/
def Encoder.Encode (e : Encoder) (value : ByteStr) (irr0 : Bits) :
    Bits × Bool :=
  let r := e._EncodeInternal value 0 0 irr0
  (r.irr, r.ok)

/-! ### Concrete stub dependencies used for witnesses and counterexamples -/

/-- Stub deterministic digest from the spec's end-to-end example: digest
bytes `[3, 5, 0, 0, ...]` for every input. -/
def stubMd5 : Md5Func := fun _ i => if i = 0 then 3 else if i = 1 then 5 else 0

/-- Stub deterministic digest whose every byte is 9. -/
def stubMd5Nine : Md5Func := fun _ _ => 9

/-- Stub keyed digest: byte `i` of the digest is `i`. -/
def stubHmac : HmacFunc := fun _ _ i => i

/-- Mask source draws from the spec's example: `PMask() = 0xFF`,
`QMask() = 0x00`, both successful. -/
def randPQ : IrrRand := { pMask := some 255, qMask := some 0 }

/-- Mask source whose `PMask` draw fails. -/
def randFailP : IrrRand := { pMask := none, qMask := some 0 }

/-- Mask source whose `PMask` draw succeeds and whose `QMask` draw fails. -/
def randFailQ : IrrRand := { pMask := some 255, qMask := none }

/-- The spec's example encoder: `num_bits = 8`, `num_hashes = 2`,
`prob_f = 0`, cohort 0, stub digests, example mask source. -/
def encEx : Encoder := mkEncoder ⟨8, 2, 0⟩ 0 stubMd5 [] stubHmac randPQ

/-- Same parameters as `encEx` but with a failing-`PMask` mask source. -/
def encFailP : Encoder := mkEncoder ⟨8, 2, 0⟩ 0 stubMd5 [] stubHmac randFailP

/-- Same parameters as `encEx` but with a failing-`QMask` mask source. -/
def encFailQ : Encoder := mkEncoder ⟨8, 2, 0⟩ 0 stubMd5 [] stubHmac randFailQ

/-- An 8-bit encoder built over the all-nines digest stub. -/
def encNb8 : Encoder := mkEncoder ⟨8, 1, 0⟩ 0 stubMd5Nine [] stubHmac randPQ

/-- A 16-bit encoder differing from `encNb8` only in `num_bits`. -/
def encNb16 : Encoder := mkEncoder ⟨16, 1, 0⟩ 0 stubMd5Nine [] stubHmac randPQ

/-- An encoder constructed from `Params` with `num_bits = 0`: both
construction-time validity checks pass. -/
def encZero : Encoder := mkEncoder ⟨0, 1, 0⟩ 0 stubMd5 [] stubHmac randPQ

/-! ### Bit-level helper lemmas -/

/-- A single-bit vector: bit `j` of `1 <<< k` is set exactly when
`j = k`. -/
theorem testBit_one_shiftLeft (k j : Nat) :
    (1 <<< k).testBit j = decide (j = k) := by
  rw [Nat.shiftLeft_eq, one_mul, Nat.testBit_two_pow]
  simp [eq_comm]

/-- A shifted 0-or-1 bit: bit `j` of `b <<< k` (with `b ≤ 1`) is set
exactly when `b = 1` and `j = k`. -/
theorem testBit_bit_shiftLeft (b k j : Nat) (hb : b ≤ 1) :
    ((b <<< k).testBit j = true) ↔ (b = 1 ∧ j = k) := by
  rcases Nat.le_one_iff_eq_zero_or_eq_one.mp hb with h | h <;> subst h
  · simp [Nat.zero_shiftLeft, Nat.zero_testBit]
  · rw [testBit_one_shiftLeft]; simp

/-- Merging one more probe or mask bit into an accumulator: the bit
predicate for range `k + 1` in terms of the predicate for range `k`. -/
theorem step_or_iff (k j : Nat) (P : Nat → Prop) :
    ((j < k ∧ P j) ∨ (P k ∧ j = k)) ↔ (j < k + 1 ∧ P j) := by
  constructor
  · rintro (⟨h1, h2⟩ | ⟨h1, h2⟩)
    · exact ⟨Nat.lt_succ_of_lt h1, h2⟩
    · subst h2; exact ⟨Nat.lt_succ_self j, h1⟩
  · rintro ⟨h1, h2⟩
    rcases Nat.lt_succ_iff_lt_or_eq.mp h1 with h | h
    · exact Or.inl ⟨h, h2⟩
    · subst h; exact Or.inr ⟨h2, rfl⟩

/-- Unfolding one iteration of the Bloom probe loop. -/
theorem bloomLoop_succ (n : Nat) (d : Md5Digest) (k : Nat) :
    bloomLoop n d (k + 1) = bloomLoop n d k ||| (1 <<< (d k % n)) := by
  simp [bloomLoop, List.range_succ]

/-- Bit characterization of the Bloom probe loop: bit `j` of the result is
set exactly when some probe `i < num_hashes` satisfies
`md5[i] % num_bits = j`. -/
theorem bloomLoop_testBit (n : Nat) (d : Md5Digest) (h j : Nat) :
    ((bloomLoop n d h).testBit j = true) ↔ ∃ i, i < h ∧ d i % n = j := by
  induction h with
  | zero =>
      simp [bloomLoop, Nat.zero_testBit]
  | succ k ih =>
      rw [bloomLoop_succ, Nat.testBit_or, Bool.or_eq_true, ih,
        testBit_one_shiftLeft]
      constructor
      · rintro (⟨i, hi, hdi⟩ | hjk)
        · exact ⟨i, Nat.lt_succ_of_lt hi, hdi⟩
        · exact ⟨k, Nat.lt_succ_self k, (of_decide_eq_true hjk).symm⟩
      · rintro ⟨i, hi, hdi⟩
        rcases Nat.lt_succ_iff_lt_or_eq.mp hi with h1 | h1
        · exact Or.inl ⟨i, h1, hdi⟩
        · subst h1; exact Or.inr (decide_eq_true hdi.symm)

/-- Unfolding one iteration of the PRR mask loop. -/
theorem prrMaskLoop_succ (t : Nat) (s : Sha256Digest) (k : Nat) :
    prrMaskLoop t s (k + 1)
      = ((prrMaskLoop t s k).1 ||| ((s k &&& 1) <<< k),
         (prrMaskLoop t s k).2
           ||| ((if s k >>> 1 < t then (1 : Nat) else 0) <<< k)) := by
  simp [prrMaskLoop, List.range_succ]

/-- Bit characterization of the PRR mask loop: bit `j` of `uniform` is set
exactly when `j < num_bits` and digest byte `j` has low bit 1; bit `j` of
`f_mask` is set exactly when `j < num_bits` and
`digest_byte[j] >> 1 < threshold`. -/
theorem prrMaskLoop_testBit (t : Nat) (s : Sha256Digest) (n j : Nat) :
    (((prrMaskLoop t s n).1.testBit j = true) ↔ (j < n ∧ s j &&& 1 = 1))
    ∧ (((prrMaskLoop t s n).2.testBit j = true)
        ↔ (j < n ∧ s j >>> 1 < t)) := by
  induction n with
  | zero =>
      simp [prrMaskLoop, Nat.zero_testBit]
  | succ k ih =>
      rw [prrMaskLoop_succ]
      constructor
      · rw [Nat.testBit_or, Bool.or_eq_true, ih.1,
          testBit_bit_shiftLeft _ _ _ Nat.and_le_right]
        rw [← step_or_iff k j (fun m => s m &&& 1 = 1)]
      · rw [Nat.testBit_or, Bool.or_eq_true, ih.2,
          testBit_bit_shiftLeft _ _ _ (by split <;> simp)]
        rw [← step_or_iff k j (fun m => s m >>> 1 < t)]
        constructor
        · rintro (h | ⟨h1, h2⟩)
          · exact Or.inl h
          · exact Or.inr ⟨by split at h1 <;> simp_all, h2⟩
        · rintro (h | ⟨h1, h2⟩)
          · exact Or.inl h
          · exact Or.inr ⟨by simp [h1], h2⟩

/-- Bit `i < 32` of the 32-bit complement is the negation of bit `i`. -/
theorem compl32_testBit (x : Bits) (i : Nat) (h : i < 32) :
    (compl32 x).testBit i = ! x.testBit i := by
  have h32 : mask32 = 2 ^ 32 - 1 := by norm_num [mask32]
  rw [compl32, Nat.testBit_xor, h32, Nat.testBit_two_pow_sub_one]
  simp [h]

/-- The masking identity `(a & ~m) | (b & m)` selects, at each position
`i < 32`, bit `i` of `b` where `m` has a 1 and bit `i` of `a` where `m`
has a 0. -/
theorem select_testBit (a b m : Bits) (i : Nat) (hi : i < 32) :
    ((a &&& compl32 m) ||| (b &&& m)).testBit i
      = if m.testBit i then b.testBit i else a.testBit i := by
  rw [Nat.testBit_or, Nat.testBit_and, Nat.testBit_and,
    compl32_testBit _ _ hi]
  cases hm : m.testBit i <;> simp

/-! ### Projections of `_EncodeInternal` -/

/-- `*bloom_out` is assigned the Bloom filter on every path. -/
theorem encodeInternal_bloom (e : Encoder) (value : ByteStr)
    (b0 p0 i0 : Bits) :
    (e._EncodeInternal value b0 p0 i0).bloom = e.MakeBloomFilter value := by
  unfold Encoder._EncodeInternal
  cases e.irr_rand.pMask <;> cases e.irr_rand.qMask <;> rfl

/-- `*prr_out` is assigned the PRR on every path. -/
theorem encodeInternal_prr (e : Encoder) (value : ByteStr)
    (b0 p0 i0 : Bits) :
    (e._EncodeInternal value b0 p0 i0).prr = e.prr value := by
  unfold Encoder._EncodeInternal
  cases e.irr_rand.pMask <;> cases e.irr_rand.qMask <;> rfl

/-- The returned bool is `false` exactly when a mask draw failed. -/
theorem encodeInternal_ok_eq_false_iff (e : Encoder) (value : ByteStr)
    (b0 p0 i0 : Bits) :
    ((e._EncodeInternal value b0 p0 i0).ok = false
      ↔ e.irr_rand.pMask = none ∨ e.irr_rand.qMask = none) := by
  unfold Encoder._EncodeInternal
  cases e.irr_rand.pMask <;> cases e.irr_rand.qMask <;> simp

/-- On a failed draw, `*irr_out` keeps its prior contents. -/
theorem encodeInternal_irr_of_fail (e : Encoder) (value : ByteStr)
    (b0 p0 i0 : Bits)
    (h : (e._EncodeInternal value b0 p0 i0).ok = false) :
    (e._EncodeInternal value b0 p0 i0).irr = i0 := by
  rcases hp : e.irr_rand.pMask with _ | p
  · simp [Encoder._EncodeInternal, hp]
  · rcases hq : e.irr_rand.qMask with _ | q
    · simp [Encoder._EncodeInternal, hp, hq]
    · simp [Encoder._EncodeInternal, hp, hq] at h

/-- When both draws succeed, `*irr_out` is assigned the IRR. -/
theorem encodeInternal_irr_of_ok (e : Encoder) (value : ByteStr)
    (b0 p0 i0 : Bits) (p q : Bits)
    (hp : e.irr_rand.pMask = some p) (hq : e.irr_rand.qMask = some q) :
    (e._EncodeInternal value b0 p0 i0).irr
      = (p &&& compl32 (e.prr value)) ||| (q &&& e.prr value) := by
  unfold Encoder._EncodeInternal
  rw [hp, hq]

/-! ### Claim C1 -/

/-- Claim C1: for every encoder with `num_bits ≥ 1` and every value,
`MakeBloomFilter(value)` is exactly the bitwise OR, over probe indices
`i ∈ [0, num_hashes)`, of the one-bit vectors
`1 << (digest[i] % num_bits)`, where `digest` is the deterministic digest
of the bytes `[0, 0, 0, cohort % 256]` followed by the bytes of `value`:
bit `j` of the result is set iff some probe `i < num_hashes` has
`digest[i] % num_bits = j`. -/
theorem C1_make_bloom_filter (e : Encoder) (value : ByteStr)
    (hnb : 1 ≤ e.num_bits) (j : Nat) :
    ((e.MakeBloomFilter value).testBit j = true)
      ↔ ∃ i, i < e.num_hashes
          ∧ e.md5_func (0 :: 0 :: 0 :: (e.cohort % 256) :: value) i
              % e.num_bits = j := by
  exact bloomLoop_testBit e.num_bits
    (e.md5_func (hashInput e.cohort value)) e.num_hashes j

/-- Witness for C1, the spec's end-to-end example: `num_bits = 8`,
`num_hashes = 2`, cohort 0, stub digest bytes `[3, 5, ...]`; encoding the
one-byte value "x" (byte 120) sets bit 3 (via probe 0, discharged through
`C1_make_bloom_filter`) and yields exactly `0b00101000 = 40`. -/
theorem C1_make_bloom_filter_witness :
    (1 ≤ encEx.num_bits)
    ∧ ((encEx.MakeBloomFilter [120]).testBit 3 = true)
    ∧ encEx.MakeBloomFilter [120] = 40 :=
  ⟨by decide,
   (C1_make_bloom_filter encEx [120] (by decide) 3).mpr
     ⟨0, by decide, by decide⟩,
   by decide⟩

/-! ### Claim C2 -/

/-- Bit characterization of `uniform`: bit `j` is set exactly when
`j < num_bits` and digest byte `j` of `HMAC(secret, value)` has low bit
1. -/
theorem getPrrMasks_uniform_testBit (e : Encoder) (value : ByteStr)
    (j : Nat) :
    (((e.GetPrrMasks value).1.testBit j = true)
      ↔ (j < e.num_bits
          ∧ e.hmac_func e.client_secret value j &&& 1 = 1)) :=
  (prrMaskLoop_testBit _ _ _ j).1

/-- Bit characterization of `f_mask`: bit `j` is set exactly when
`j < num_bits` and `digest_byte[j] >> 1 < threshold128`. -/
theorem getPrrMasks_fmask_testBit (e : Encoder) (value : ByteStr)
    (j : Nat) :
    (((e.GetPrrMasks value).2.testBit j = true)
      ↔ (j < e.num_bits
          ∧ e.hmac_func e.client_secret value j >>> 1
              < threshold128 e.prob_f)) :=
  (prrMaskLoop_testBit _ _ _ j).2

/-- No bit at a position `≥ num_bits` is ever set in either PRR mask. -/
theorem getPrrMasks_high_bits (e : Encoder) (value : ByteStr) (j : Nat)
    (hj : e.num_bits ≤ j) :
    (e.GetPrrMasks value).1.testBit j = false
    ∧ (e.GetPrrMasks value).2.testBit j = false := by
  constructor
  · cases hb : (e.GetPrrMasks value).1.testBit j
    · rfl
    · have := ((getPrrMasks_uniform_testBit e value j).mp hb).1
      omega
  · cases hb : (e.GetPrrMasks value).2.testBit j
    · rfl
    · have := ((getPrrMasks_fmask_testBit e value j).mp hb).1
      omega

/-- Claim C2: for a valid encoder with `num_bits ≤ 32`, with `d` the keyed
digest of `value` under the secret and `threshold = ⌊prob_f * 128⌋`: for
`i < num_bits`, bit `i` of `uniform` is `d[i] & 1` and bit `i` of `f_mask`
is set exactly when `d[i] >> 1 < threshold`; no other bits are set in
either mask; the PRR computed by `_EncodeInternal` equals
`(bloom & ~f_mask) | (uniform & f_mask)`; and pointwise, a PRR bit where
`f_mask` is 0 equals the Bloom bit and a PRR bit where `f_mask` is 1
equals the uniform bit. -/
theorem C2_prr_masks (e : Encoder) (value : ByteStr)
    (hnb : e.num_bits ≤ 32) (b0 p0 i0 : Bits) :
    (threshold128 e.prob_f = (⌊e.prob_f * 128⌋).toNat)
    ∧ (∀ i, i < e.num_bits →
        (((e.GetPrrMasks value).1.testBit i = true)
            ↔ e.hmac_func e.client_secret value i &&& 1 = 1)
        ∧ (((e.GetPrrMasks value).2.testBit i = true)
            ↔ e.hmac_func e.client_secret value i >>> 1
                < threshold128 e.prob_f))
    ∧ (∀ i, e.num_bits ≤ i →
        (e.GetPrrMasks value).1.testBit i = false
        ∧ (e.GetPrrMasks value).2.testBit i = false)
    ∧ ((e._EncodeInternal value b0 p0 i0).prr
        = (e.MakeBloomFilter value &&& compl32 (e.GetPrrMasks value).2)
          ||| ((e.GetPrrMasks value).1 &&& (e.GetPrrMasks value).2))
    ∧ (∀ i, i < 32 →
        ((e.GetPrrMasks value).2.testBit i = false →
          (e._EncodeInternal value b0 p0 i0).prr.testBit i
            = (e.MakeBloomFilter value).testBit i)
        ∧ ((e.GetPrrMasks value).2.testBit i = true →
          (e._EncodeInternal value b0 p0 i0).prr.testBit i
            = (e.GetPrrMasks value).1.testBit i)) := by
  refine ⟨rfl, ?_, ?_, encodeInternal_prr e value b0 p0 i0, ?_⟩
  · intro i hi
    exact ⟨(getPrrMasks_uniform_testBit e value i).trans (and_iff_right hi),
      (getPrrMasks_fmask_testBit e value i).trans (and_iff_right hi)⟩
  · exact fun i hi => getPrrMasks_high_bits e value i hi
  · intro i hi
    have hs := select_testBit (e.MakeBloomFilter value)
      (e.GetPrrMasks value).1 (e.GetPrrMasks value).2 i hi
    constructor
    · intro hm
      rw [encodeInternal_prr, Encoder.prr, hs, hm]
      simp
    · intro hm
      rw [encodeInternal_prr, Encoder.prr, hs, hm]
      simp

/-- Witness for C2 on the example encoder (`num_bits = 8`, `prob_f = 0`,
digest byte `i` equal to `i`): uniform bit 1 is set (digest byte 1 has low
bit 1, discharged through `C2_prr_masks`), and uniform bit 9 — beyond
`num_bits` — is clear. -/
theorem C2_prr_masks_witness :
    ((encEx.GetPrrMasks [120]).1.testBit 1 = true)
    ∧ ((encEx.GetPrrMasks [120]).1.testBit 9 = false) :=
  ⟨((C2_prr_masks encEx [120] (by decide) 0 0 0).2.1 1 (by decide)).1.mpr
     (by decide),
   ((C2_prr_masks encEx [120] (by decide) 0 0 0).2.2.1 9 (by decide)).1⟩

/-! ### Claim C3 -/

/-- Claim C3: when both mask draws succeed with values `p` and `q`, the
report computed by `_EncodeInternal` equals
`(p_bits & ~prr) | (q_bits & prr)`; pointwise, each bit position where the
PRR is 0 takes the bit of `p_bits` and each position where it is 1 takes
the bit of `q_bits`. -/
theorem C3_irr_formula (e : Encoder) (value : ByteStr) (b0 p0 i0 : Bits)
    (p q : Bits) (hp : e.irr_rand.pMask = some p)
    (hq : e.irr_rand.qMask = some q) :
    ((e._EncodeInternal value b0 p0 i0).irr
      = (p &&& compl32 ((e._EncodeInternal value b0 p0 i0).prr))
        ||| (q &&& (e._EncodeInternal value b0 p0 i0).prr))
    ∧ (∀ i, i < 32 →
        (((e._EncodeInternal value b0 p0 i0).prr.testBit i = false →
          (e._EncodeInternal value b0 p0 i0).irr.testBit i = p.testBit i)
        ∧ ((e._EncodeInternal value b0 p0 i0).prr.testBit i = true →
          (e._EncodeInternal value b0 p0 i0).irr.testBit i
            = q.testBit i))) := by
  have hirr := encodeInternal_irr_of_ok e value b0 p0 i0 p q hp hq
  have hprr := encodeInternal_prr e value b0 p0 i0
  refine ⟨by rw [hirr, hprr], ?_⟩
  intro i hi
  have hs := select_testBit p q (e.prr value) i hi
  constructor
  · intro hm
    rw [hprr] at hm
    rw [hirr, hs, hm]
    simp
  · intro hm
    rw [hprr] at hm
    rw [hirr, hs, hm]
    simp

/-- With `prob_f = 0` the noise threshold is 0. -/
theorem encEx_threshold : threshold128 encEx.prob_f = 0 := by
  norm_num [threshold128, encEx, mkEncoder]

/-- Concrete PRR masks of the example encoder on value "x": with digest
byte `i` equal to `i`, `uniform = 0b10101010` and, with threshold 0,
`f_mask = 0`. -/
theorem encEx_masks : encEx.GetPrrMasks [120] = (170, 0) := by
  show prrMaskLoop (threshold128 encEx.prob_f)
    (encEx.hmac_func encEx.client_secret [120]) encEx.num_bits = (170, 0)
  rw [encEx_threshold]
  decide

/-- Concrete PRR of the example encoder on value "x": with `f_mask = 0`
the PRR is the raw Bloom filter 40. -/
theorem encEx_prr_eq : (encEx._EncodeInternal [120] 0 0 0).prr = 40 := by
  rw [encodeInternal_prr, Encoder.prr, encEx_masks]
  decide

/-- Witness for C3 at the example encoder, whose mask source draws
`PMask() = 255` and `QMask() = 0`: the report equals
`(255 & ~prr) | (0 & prr)`, and (via the pointwise part of
`C3_irr_formula`) bit 0 of the report equals bit 0 of `p_bits = 255`,
since PRR bit 0 is clear. -/
theorem C3_irr_formula_witness :
    ((encEx._EncodeInternal [120] 0 0 0).irr
      = (255 &&& compl32 ((encEx._EncodeInternal [120] 0 0 0).prr))
        ||| (0 &&& (encEx._EncodeInternal [120] 0 0 0).prr))
    ∧ (encEx._EncodeInternal [120] 0 0 0).irr.testBit 0 = true :=
  ⟨(C3_irr_formula encEx [120] 0 0 0 255 0 rfl rfl).1,
   by
    have h := ((C3_irr_formula encEx [120] 0 0 0 255 0 rfl rfl).2 0
      (by decide)).1 (by rw [encEx_prr_eq]; decide)
    rw [h]; decide⟩

/-! ### Claim C4 -/

/-- Claim C4: `Encode` returns `ok = false` exactly when a mask draw
fails — when `PMask` fails, or when `PMask` succeeds and `QMask` fails —
and returns `true` otherwise; when `PMask` fails the `QMask` draw is never
consulted (the outcome is identical for any `QMask` behaviour); and no
default mask is substituted on failure (the caller's report variable is
returned untouched). -/
theorem C4_encode_failure (e : Encoder) (value : ByteStr)
    (irr0 b0 p0 : Bits) :
    ((e.Encode value irr0).2 = false
      ↔ (e.irr_rand.pMask = none
          ∨ ((∃ p, e.irr_rand.pMask = some p)
              ∧ e.irr_rand.qMask = none)))
    ∧ (∀ q q' : Option Bits,
        Encoder._EncodeInternal
            { e with irr_rand := { pMask := none, qMask := q } }
            value b0 p0 irr0
          = Encoder._EncodeInternal
            { e with irr_rand := { pMask := none, qMask := q' } }
            value b0 p0 irr0)
    ∧ ((e.Encode value irr0).2 = false → (e.Encode value irr0).1 = irr0) := by
  refine ⟨?_, fun q q' => rfl, ?_⟩
  · have hok := encodeInternal_ok_eq_false_iff e value 0 0 irr0
    refine hok.trans ?_
    rcases hp : e.irr_rand.pMask with _ | p
    · simp
    · simp [hp]
  · intro h
    exact encodeInternal_irr_of_fail e value 0 0 irr0 h

/-- Witness for C4: on the encoder whose `PMask` draw fails, `Encode`
returns `false` (discharged through `C4_encode_failure`) and hands back
the caller's prior report value 7 unchanged. -/
theorem C4_encode_failure_witness :
    ((encFailP.Encode [120] 7).2 = false)
    ∧ ((encFailP.Encode [120] 7).1 = 7) := by
  have h := C4_encode_failure encFailP [120] 7 0 0
  have hfail : (encFailP.Encode [120] 7).2 = false := h.1.mpr (Or.inl rfl)
  exact ⟨hfail, h.2.2 hfail⟩

/-! ### Claim C5 -/

/-- Claim C5 (refuting evaluation): the `(Params&, Deps&)` constructor
performs no validation.  With `num_bits = 12` — not a multiple of 8 — and
the uninitialized `is_valid_` memory happening to read `true`, `IsValid()`
returns `true`; the validating constructor rejects the same parameters. -/
theorem C5_deps_constructor_no_validation :
    (12 % 8 ≠ 0)
    ∧ ((mkEncoderDeps ⟨12, 2, 0⟩
          ⟨0, stubMd5, [], stubHmac, randPQ⟩ true 0).IsValid = true)
    ∧ ((mkEncoder ⟨12, 2, 0⟩ 0 stubMd5 [] stubHmac randPQ).IsValid
        = false) :=
  ⟨by decide, rfl, by decide⟩

/-! ### Claim C6 -/

/-- Counterexample to claim C6 as stated: the claim quantifies over every
encoder instance with `IsValid() = true`, but an instance built by the
`(Params&, Deps&)` constructor from `Params` with `num_bits = 40` — whose
uninitialized `is_valid_` memory happens to read `true` — reports
`IsValid() = true` while `num_bits > 32`, so the assertion
`num_bits_ <= 32` inside `GetPrrMasks` would fail on its `Encode`
calls. -/
theorem C6_counterexample :
    ((mkEncoderDeps ⟨40, 1, 0⟩
        ⟨0, stubMd5, [], stubHmac, randPQ⟩ true 0).IsValid = true)
    ∧ ¬((mkEncoderDeps ⟨40, 1, 0⟩
        ⟨0, stubMd5, [], stubHmac, randPQ⟩ true 0).num_bits ≤ 32) :=
  ⟨rfl, by decide⟩

/-- Claim C6 as amended: an encoder built by the *validating* constructor
with `IsValid() = true` has `num_bits ≤ 32`, so the assertion
`num_bits_ <= 32` inside `GetPrrMasks` holds on every `Encode` call made
on such a valid encoder.  (The restriction is forced: the
`(Params&, Deps&)` constructor leaves `is_valid_` uninitialized, see
`C6_counterexample`.) -/
theorem C6_valid_implies_num_bits_le_32 (params : Params) (cohort : Nat)
    (md5_func : Md5Func) (client_secret : ByteStr) (hmac_func : HmacFunc)
    (irr_rand : IrrRand)
    (h : (mkEncoder params cohort md5_func client_secret hmac_func
        irr_rand).IsValid = true) :
    (mkEncoder params cohort md5_func client_secret hmac_func
        irr_rand).num_bits ≤ 32 := by
  have hk : kMaxBits = 32 := rfl
  show params.num_bits ≤ 32
  have h' : (if params.num_bits > kMaxBits then false
      else if params.num_bits % 8 == 0 then true else false) = true := h
  split at h'
  · exact absurd h' (by simp)
  · omega

/-- Witness for C6: the example parameters (`num_bits = 8`) produce a
valid encoder, so `C6_valid_implies_num_bits_le_32` bounds its
`num_bits` by 32. -/
theorem C6_valid_implies_num_bits_le_32_witness :
    (mkEncoder ⟨8, 2, 0⟩ 0 stubMd5 [] stubHmac randPQ).num_bits ≤ 32 :=
  C6_valid_implies_num_bits_le_32 ⟨8, 2, 0⟩ 0 stubMd5 [] stubHmac randPQ
    (by decide)

/-! ### Claim C7 -/

/-- Every set bit of the Bloom filter lies strictly below `num_bits`
(given `num_bits ≥ 1`). -/
theorem makeBloomFilter_high_bits (e : Encoder) (value : ByteStr)
    (h1 : 1 ≤ e.num_bits) (j : Nat) (hj : e.num_bits ≤ j) :
    (e.MakeBloomFilter value).testBit j = false := by
  cases hb : (e.MakeBloomFilter value).testBit j
  · rfl
  · obtain ⟨i, hi, hdi⟩ := (bloomLoop_testBit e.num_bits
      (e.md5_func (hashInput e.cohort value)) e.num_hashes j).mp hb
    have := Nat.mod_lt (e.md5_func (hashInput e.cohort value) i)
      (show 0 < e.num_bits by omega)
    omega

/-- No bit at a position `≥ num_bits` is ever set in the PRR. -/
theorem prr_high_bits (e : Encoder) (value : ByteStr)
    (h1 : 1 ≤ e.num_bits) (j : Nat) (hj : e.num_bits ≤ j) :
    (e.prr value).testBit j = false := by
  rw [Encoder.prr, Nat.testBit_or, Nat.testBit_and, Nat.testBit_and,
    makeBloomFilter_high_bits e value h1 j hj,
    (getPrrMasks_high_bits e value j hj).1]
  simp

/-- Claim C7: for a valid encoder with `1 ≤ num_bits ≤ 32`, every
bit-vector the pipeline produces has all bits at positions `≥ num_bits`
equal to zero: the Bloom filter, both PRR masks, the PRR, and — provided
the drawn `p_bits` and `q_bits` themselves have all such bits zero — the
IRR report. -/
theorem C7_high_bits_zero (e : Encoder) (value : ByteStr)
    (h1 : 1 ≤ e.num_bits) (h2 : e.num_bits ≤ 32) (b0 p0 i0 : Bits) :
    (∀ j, e.num_bits ≤ j → (e.MakeBloomFilter value).testBit j = false)
    ∧ (∀ j, e.num_bits ≤ j →
        (e.GetPrrMasks value).1.testBit j = false
        ∧ (e.GetPrrMasks value).2.testBit j = false)
    ∧ (∀ j, e.num_bits ≤ j →
        (e._EncodeInternal value b0 p0 i0).prr.testBit j = false)
    ∧ (∀ p q, e.irr_rand.pMask = some p → e.irr_rand.qMask = some q →
        (∀ j, e.num_bits ≤ j → p.testBit j = false) →
        (∀ j, e.num_bits ≤ j → q.testBit j = false) →
        ∀ j, e.num_bits ≤ j →
          (e._EncodeInternal value b0 p0 i0).irr.testBit j = false) := by
  refine ⟨fun j hj => makeBloomFilter_high_bits e value h1 j hj,
    fun j hj => getPrrMasks_high_bits e value j hj, ?_, ?_⟩
  · intro j hj
    rw [encodeInternal_prr]
    exact prr_high_bits e value h1 j hj
  · intro p q hp hq hpj hqj j hj
    rw [encodeInternal_irr_of_ok e value b0 p0 i0 p q hp hq,
      Nat.testBit_or, Nat.testBit_and, Nat.testBit_and, hpj j hj, hqj j hj]
    simp

/-- Witness for C7 at the example encoder (`num_bits = 8`): bit 9 of the
Bloom filter and bit 8 of the PRR are zero, through
`C7_high_bits_zero`. -/
theorem C7_high_bits_zero_witness :
    ((encEx.MakeBloomFilter [120]).testBit 9 = false)
    ∧ ((encEx._EncodeInternal [120] 0 0 0).prr.testBit 8 = false) :=
  ⟨(C7_high_bits_zero encEx [120] (by decide) (by decide) 0 0 0).1 9
     (by decide),
   (C7_high_bits_zero encEx [120] (by decide) (by decide) 0 0 0).2.2.1 8
     (by decide)⟩

/-! ### Claim C8 -/

/-- Counterexample to claim C8 as stated: two encoders with equal cohort
and the same deterministic digest function (every digest byte 9) but
different `num_bits` (8 versus 16) produce different Bloom filters for the
same value, because the probe bit is `digest_byte % num_bits`
(`9 % 8 = 1` versus `9 % 16 = 9`). -/
theorem C8_counterexample :
    encNb8.cohort = encNb16.cohort
    ∧ encNb8.md5_func = encNb16.md5_func
    ∧ encNb8.MakeBloomFilter [120] ≠ encNb16.MakeBloomFilter [120] :=
  ⟨rfl, rfl, by decide⟩

/-- Claim C8 as amended: the deterministic stages are pure functions of
their stated inputs — `MakeBloomFilter` of `(cohort, value)`, the digest
function, and additionally the `num_bits` and `num_hashes` parameters;
`GetPrrMasks` of `(secret, value)`, the keyed digest function, `num_bits`
and `prob_f`; and the PRR computed by `_EncodeInternal` is identical
regardless of the mask source's behaviour and of the out-variables'
initial contents. -/
theorem C8_determinism (e1 e2 : Encoder) (value : ByteStr)
    (hb : e1.num_bits = e2.num_bits) (hh : e1.num_hashes = e2.num_hashes)
    (hc : e1.cohort = e2.cohort) (hm : e1.md5_func = e2.md5_func)
    (hs : e1.client_secret = e2.client_secret)
    (hhm : e1.hmac_func = e2.hmac_func) (hf : e1.prob_f = e2.prob_f) :
    (e1.MakeBloomFilter value = e2.MakeBloomFilter value)
    ∧ (e1.GetPrrMasks value = e2.GetPrrMasks value)
    ∧ (∀ (r1 r2 : IrrRand) (b0 p0 i0 b0' p0' i0' : Bits),
        (Encoder._EncodeInternal { e1 with irr_rand := r1 } value
            b0 p0 i0).prr
          = (Encoder._EncodeInternal { e1 with irr_rand := r2 } value
              b0' p0' i0').prr) := by
  refine ⟨?_, ?_, ?_⟩
  · show bloomLoop e1.num_bits (e1.md5_func (hashInput e1.cohort value))
      e1.num_hashes = _
    rw [hb, hh, hc, hm]
    rfl
  · show prrMaskLoop (threshold128 e1.prob_f)
      (e1.hmac_func e1.client_secret value) e1.num_bits = _
    rw [hf, hhm, hs, hb]
    rfl
  · intro r1 r2 b0 p0 i0 b0' p0' i0'
    rw [encodeInternal_prr, encodeInternal_prr]
    rfl

/-- Witness for C8: `encEx` and `encFailP` share every deterministic
field and differ only in the mask source; `C8_determinism` gives them the
same Bloom filter. -/
theorem C8_determinism_witness :
    encEx.MakeBloomFilter [120] = encFailP.MakeBloomFilter [120] :=
  (C8_determinism encEx encFailP [120] rfl rfl rfl rfl rfl rfl rfl).1

/-! ### Claim C9 -/

/-- Claim C9 (refuting evaluation): `Params` with `num_bits = 0` pass both
construction-time validity checks (`0 > kMaxBits` is false, `0 % 8 == 0`
holds), so the constructed encoder reports `IsValid() = true` with
`num_hashes = 1 ≥ 1`, yet every Bloom probe computes `md5[i] % num_bits`
with divisor `num_bits = 0`. -/
theorem C9_zero_num_bits_is_valid :
    encZero.IsValid = true ∧ 1 ≤ encZero.num_hashes
      ∧ encZero.num_bits = 0 :=
  ⟨by decide, by decide, rfl⟩

/-! ### Claim C10 -/

/-- Claim C10: `_EncodeInternal` assigns `*bloom_out` and `*prr_out`
unconditionally (their final values never depend on the variables' prior
contents `b0`, `p0`), while `*irr_out` is written exactly when the call
returns `true`: on any failed mask draw the prior contents `i0` survive —
both at `_EncodeInternal` and at `Encode` — and on success `*irr_out`
holds the IRR built from the two drawn masks. -/
theorem C10_out_params (e : Encoder) (value : ByteStr) (b0 p0 i0 : Bits) :
    ((e._EncodeInternal value b0 p0 i0).bloom = e.MakeBloomFilter value)
    ∧ ((e._EncodeInternal value b0 p0 i0).prr
        = (e.MakeBloomFilter value &&& compl32 (e.GetPrrMasks value).2)
          ||| ((e.GetPrrMasks value).1 &&& (e.GetPrrMasks value).2))
    ∧ ((e._EncodeInternal value b0 p0 i0).ok = false →
        (e._EncodeInternal value b0 p0 i0).irr = i0
        ∧ (e.Encode value i0).1 = i0)
    ∧ ((e._EncodeInternal value b0 p0 i0).ok = true →
        ∃ p q, e.irr_rand.pMask = some p ∧ e.irr_rand.qMask = some q
          ∧ (e._EncodeInternal value b0 p0 i0).irr
              = (p &&& compl32 ((e._EncodeInternal value b0 p0 i0).prr))
                ||| (q &&& (e._EncodeInternal value b0 p0 i0).prr)) := by
  refine ⟨encodeInternal_bloom e value b0 p0 i0,
    encodeInternal_prr e value b0 p0 i0, ?_, ?_⟩
  · intro h
    refine ⟨encodeInternal_irr_of_fail e value b0 p0 i0 h, ?_⟩
    have h0 : (e._EncodeInternal value 0 0 i0).ok = false :=
      (encodeInternal_ok_eq_false_iff e value 0 0 i0).mpr
        ((encodeInternal_ok_eq_false_iff e value b0 p0 i0).mp h)
    exact encodeInternal_irr_of_fail e value 0 0 i0 h0
  · intro h
    have hne : ¬(e.irr_rand.pMask = none ∨ e.irr_rand.qMask = none) := by
      intro hor
      have hcon := (encodeInternal_ok_eq_false_iff e value b0 p0 i0).mpr hor
      rw [h] at hcon
      simp at hcon
    push_neg at hne
    rcases Option.ne_none_iff_exists'.mp hne.1 with ⟨p, hp⟩
    rcases Option.ne_none_iff_exists'.mp hne.2 with ⟨q, hq⟩
    exact ⟨p, q, hp, hq, by
      rw [encodeInternal_irr_of_ok e value b0 p0 i0 p q hp hq,
        encodeInternal_prr]⟩

/-- Witness for C10 on the encoder whose `QMask` draw fails: the call
returns `false`, the caller's prior report value 7 survives untouched, and
`*bloom_out` was still assigned the Bloom filter — all through
`C10_out_params`. -/
theorem C10_out_params_witness :
    ((encFailQ._EncodeInternal [120] 1 2 7).ok = false)
    ∧ ((encFailQ._EncodeInternal [120] 1 2 7).irr = 7)
    ∧ ((encFailQ._EncodeInternal [120] 1 2 7).bloom
        = encFailQ.MakeBloomFilter [120]) := by
  have h := C10_out_params encFailQ [120] 1 2 7
  have hok : (encFailQ._EncodeInternal [120] 1 2 7).ok = false :=
    (encodeInternal_ok_eq_false_iff encFailQ [120] 1 2 7).mpr (Or.inr rfl)
  exact ⟨hok, (h.2.2.1 hok).1, h.1⟩

end rappor
